import Mathlib

/-!
Verification of the segment-based ID generator
(`internal/generator/segment.go` of haoxianhan/id-generator).

The Go code is embedded shallowly: the mutable fields of
`SegmentIDGenerator` become a state record `GenState` threaded
explicitly through each operation, and the MongoDB round trip
(`FindOneAndUpdate` with `$inc`/upsert) becomes a pure model
`incrementAndFetch` over a `StoreState` that carries the counter
together with a schedule of transient faults.  Ghost fields record
observable events that the claims talk about: the number of store
round trips (`StoreState.calls`), the `time.Sleep` durations taken in
`switchSegment` (`GenState.sleeps`), and the number of `go
loadNextSegment()` spawns (`GenState.prefetchDispatches`).  The
spawned background load is executed synchronously at its dispatch
point, which is the standard sequentialization of a fire-and-forget
goroutine.

A separate, per-atomic-operation interleaving model of the promote
step of `switchSegment` (lines 94, 106, 110, 111 of segment.go) is
developed at the end, to analyse the concurrency claim about the
active/standby swap.
-/

set_option autoImplicit false

namespace IdGenerator

/-- Mirrors `type Segment struct { Min, Max, Current int64 }`
(segment.go lines 14-18).  `Current` is the dispensing cursor,
advanced by `atomic.AddInt64` in `NextID`. -/
structure Segment where
  Min : Int
  Max : Int
  Current : Int
deriving Repr, DecidableEq

/-- State of the shared persistent counter (the MongoDB document
`{_id: bizTag, maxId: ...}` used by `loadNextSegment`, segment.go
lines 124-146).  `counter` is the stored `maxId` (0 when the document
does not exist yet, matching upsert semantics); `faults` schedules
transient store errors: the head of the list tells whether the next
round trip fails; an empty schedule means all further calls succeed.
`calls` is a ghost count of round trips actually issued. -/
structure StoreState where
  counter : Int
  faults : List Bool
  calls : Nat
deriving Repr, DecidableEq

/-- Models the `FindOneAndUpdate` with `$inc: {maxId: step}` and
upsert (segment.go lines 124-146): atomically add `step` to the
counter and return the new value.  A scheduled fault yields an error
(timeout / connection error) and leaves the counter unchanged. -/
def incrementAndFetch (step : Int) (st : StoreState) : Except Unit Int × StoreState :=
  match st.faults with
  | [] =>
      (Except.ok (st.counter + step),
       { st with counter := st.counter + step, calls := st.calls + 1 })
  | f :: rest =>
      if f then
        (Except.error (), { st with faults := rest, calls := st.calls + 1 })
      else
        (Except.ok (st.counter + step),
         { counter := st.counter + step, faults := rest, calls := st.calls + 1 })

/-- Errors produced by the generator, one constructor per
`fmt.Errorf` site in segment.go. -/
inductive GenError where
  /-- "no available segment" (line 57). -/
  | noAvailableSegment : GenError
  /-- "load segment failed: %v" (line 149): the store round trip errored. -/
  | storeUnavailable : GenError
  /-- "invalid maxId: %d" (line 154). -/
  | invalidMaxId : Int → GenError
  /-- "switch segment failed after %d retries: %v" (line 99). -/
  | switchRetriesExhausted : GenError → GenError
  /-- "failed to load next segment" (line 107). -/
  | nextSegmentMissing : GenError
  /-- "failed to switch segment: %v" (line 71). -/
  | switchFailed : GenError → GenError
  /-- "failed to generate id after retry" (line 75). -/
  | retryExhausted : GenError
deriving Repr, DecidableEq

deriving instance DecidableEq for Except

/-- Mirrors the mutable fields of `SegmentIDGenerator` (segment.go
lines 20-27): `currentSegment` and `nextSegment` are the
`atomic.Pointer[Segment]` slots (`none` = nil pointer), `loadingFlag`
the `atomic.Bool` refill guard, `step` the fixed step field.
`store` is the shared counter state, `sleeps` a ghost trace of
`time.Sleep` durations in milliseconds, and `prefetchDispatches` a
ghost count of `go loadNextSegment()` spawns. -/
structure GenState where
  currentSegment : Option Segment
  nextSegment : Option Segment
  loadingFlag : Bool
  step : Int
  store : StoreState
  sleeps : List Nat
  prefetchDispatches : Nat
deriving Repr, DecidableEq

/-- Ghost recording of `time.Sleep(time.Millisecond * 100 * (i+1))`
(segment.go line 101). -/
def sleepMs (ms : Nat) (g : GenState) : GenState :=
  { g with sleeps := g.sleeps ++ [ms] }

/-- Mirrors `loadNextSegment` (segment.go lines 115-165).  The
`CompareAndSwap(false, true)` entry guard returns nil immediately when
the flag is already set (coalescing); otherwise the store round trip
runs, the result is validated (`maxId > 0`), the fresh segment
`{Min: maxId-step+1, Max: maxId, Current: maxId-step}` is stored into
`nextSegment`, and the deferred `loadingFlag.Store(false)` releases
the guard on every exit path. -/
def loadNextSegment (g : GenState) : Except GenError Unit × GenState :=
  if g.loadingFlag then
    (Except.ok (), g)
  else
    match incrementAndFetch g.step g.store with
    | (Except.error _, st) =>
        (Except.error GenError.storeUnavailable, { g with store := st })
    | (Except.ok newMax, st) =>
        if newMax ≤ 0 then
          (Except.error (GenError.invalidMaxId newMax), { g with store := st })
        else
          (Except.ok (),
           { g with
             store := st
             nextSegment := some { Min := newMax - g.step + 1
                                   Max := newMax
                                   Current := newMax - g.step } })

/-- Usage-threshold test of `shouldLoadNext` (segment.go line 86):
the Go code compares `float64(used)/float64(total) >= 0.8`, which is
transcribed as the cross-multiplied exact inequality
`4 * total ≤ 5 * used` so that it stays kernel-computable.  Lemma
`usageThreshold_iff_ratio` proves that for `0 < total` this is exactly
`used / total ≥ 4/5` in `ℚ`; for the segment widths this generator
produces (`total = step = 1000`) the `float64` comparison agrees with
the exact rational one, because `used/1000` rounds to a double at
distance below `2^-53` from the exact value while the neighbouring
ratios `799/1000` and `800/1000` are `10^-3` apart, so rounding can
never cross the threshold. -/
def usageThreshold (used total : Int) : Bool :=
  decide (4 * total ≤ 5 * used)

/-- Exact rational form of the usage-ratio condition of segment.go
lines 84-86 on a segment whose cursor sits at the just-claimed value:
`(Current - Min + 1) / (Max - Min + 1) ≥ 0.8`. -/
def usageRatioAtLeastFourFifths (s : Segment) : Prop :=
  ((s.Current - s.Min + 1 : Int) : ℚ) / ((s.Max - s.Min + 1 : Int) : ℚ) ≥ 4 / 5

/-- Mirrors `shouldLoadNext` (segment.go lines 78-89): preload when
the active segment is at least 80% used, no next segment is staged,
and no load is in flight. -/
def shouldLoadNext (g : GenState) (segment : Option Segment) : Bool :=
  match segment with
  | none => true
  | some s =>
      let used : Int := s.Current - s.Min + 1
      let total : Int := s.Max - s.Min + 1
      usageThreshold used total && g.nextSegment.isNone && !g.loadingFlag

/-- Mirrors segment.go lines 106-112: the code that runs after the
retry loop of `switchSegment`.  If `nextSegment` is still nil the
switch fails; otherwise the standby is promoted by two separate atomic
stores: `currentSegment.Store(nextSegment.Load())` then
`nextSegment.Store(nil)`. -/
def promoteNext (g : GenState) : Except GenError Unit × GenState :=
  match g.nextSegment with
  | none => (Except.error GenError.nextSegmentMissing, g)
  | some s =>
      (Except.ok (), { g with currentSegment := some s, nextSegment := none })

/-- Mirrors the `for i := 0; i < maxRetries; i++` loop of
`switchSegment` (segment.go lines 92-104) followed by the promote code
(lines 106-112).  `rem` is the number of loop iterations still
allowed, so the Go loop index is `i = 3 - rem`; the check `i ==
maxRetries-1` becomes `rem = 1`, and the sleep duration
`100ms * (i+1)` becomes `100 * (3 - rem) + 100 = 100 * (4 - rem)`
milliseconds taken before re-entering with `rem - 1`. -/
def switchLoop : Nat → GenState → Except GenError Unit × GenState
  | 0, g => promoteNext g
  | rem + 1, g =>
      if g.nextSegment.isSome then promoteNext g
      else
        match loadNextSegment g with
        | (Except.ok _, g1) => switchLoop rem g1
        | (Except.error e, g1) =>
            match rem with
            | 0 => (Except.error (GenError.switchRetriesExhausted e), g1)
            | r + 1 => switchLoop (r + 1) (sleepMs (100 * (3 - (rem + 1) + 1)) g1)

/-- Mirrors `switchSegment` (segment.go lines 91-113) with
`maxRetries = 3`. -/
def switchSegment (g : GenState) : Except GenError Unit × GenState :=
  switchLoop 3 g

/-- Mirrors one iteration of the `for i := 0; i < 2; i++` retry loop
of `NextID` (segment.go lines 53-76), with `fuel` the number of
iterations left.  `atomic.AddInt64(&current.Current, 1)` mutates the
segment held in the `currentSegment` slot in place, so the slot is
updated with the advanced cursor before anything else runs.  The
`go loadNextSegment()` spawn is counted in `prefetchDispatches` and
the spawned load is run synchronously at the dispatch point. -/
def nextIDLoop : Nat → GenState → Except GenError Int × GenState
  | 0, g => (Except.error GenError.retryExhausted, g)
  | fuel + 1, g =>
      match g.currentSegment with
      | none => (Except.error GenError.noAvailableSegment, g)
      | some cur =>
          let claimed := cur.Current + 1
          let cur1 : Segment := { cur with Current := claimed }
          let g1 := { g with currentSegment := some cur1 }
          if claimed ≤ cur1.Max then
            if shouldLoadNext g1 (some cur1) then
              let g2 := { g1 with prefetchDispatches := g1.prefetchDispatches + 1 }
              (Except.ok claimed, (loadNextSegment g2).2)
            else
              (Except.ok claimed, g1)
          else
            match switchSegment g1 with
            | (Except.error e, g2) => (Except.error (GenError.switchFailed e), g2)
            | (Except.ok _, g2) => nextIDLoop fuel g2

/-- Mirrors `NextID` (segment.go lines 53-76): at most 2 iterations of
the dispense/switch loop. -/
def NextID (g : GenState) : Except GenError Int × GenState :=
  nextIDLoop 2 g

/-- Mirrors `NewSegmentIDGenerator` (segment.go lines 29-51) from the
point where the Mongo client is connected: the generator starts with
both slots nil, the loading flag clear and `step = 1000`; the first
segment is loaded synchronously and moved from `nextSegment` to
`currentSegment`. -/
def NewSegmentIDGenerator (st : StoreState) : Except GenError GenState :=
  let g0 : GenState :=
    { currentSegment := none, nextSegment := none, loadingFlag := false
      step := 1000, store := st, sleeps := [], prefetchDispatches := 0 }
  match loadNextSegment g0 with
  | (Except.error e, _) => Except.error e
  | (Except.ok _, g1) =>
      Except.ok { g1 with currentSegment := g1.nextSegment, nextSegment := none }

/-- Width invariant of the generator: the step is the hardcoded 1000
of `NewSegmentIDGenerator` (segment.go line 38) and every segment held
in either slot spans exactly 1000 identifiers. -/
def WidthInv (g : GenState) : Prop :=
  g.step = 1000 ∧
  (∀ s, g.currentSegment = some s → s.Max - s.Min + 1 = 1000) ∧
  (∀ s, g.nextSegment = some s → s.Max - s.Min + 1 = 1000)

theorem usageThreshold_iff_ratio (used total : Int) (h : 0 < total) :
    usageThreshold used total = true ↔
      ((used : ℚ) / (total : ℚ) ≥ 4 / 5) := by
  rw [usageThreshold, decide_eq_true_eq, ge_iff_le,
    div_le_div_iff₀ (by norm_num) (by exact_mod_cast h)]
  constructor
  · intro hle
    have : ((4 * total : Int) : ℚ) ≤ ((5 * used : Int) : ℚ) := by exact_mod_cast hle
    push_cast at this ⊢
    linarith
  · intro hle
    have : ((4 * total : Int) : ℚ) ≤ ((5 * used : Int) : ℚ) := by
      push_cast
      linarith
    exact_mod_cast this

theorem loadNextSegment_preserves (g : GenState) :
    (loadNextSegment g).2.currentSegment = g.currentSegment ∧
    (loadNextSegment g).2.step = g.step ∧
    (loadNextSegment g).2.loadingFlag = g.loadingFlag ∧
    (loadNextSegment g).2.sleeps = g.sleeps ∧
    (loadNextSegment g).2.prefetchDispatches = g.prefetchDispatches := by
  unfold loadNextSegment
  split
  · exact ⟨rfl, rfl, rfl, rfl, rfl⟩
  · split
    · simp
    · split <;> simp

theorem loadNextSegment_ok_inv (g g1 : GenState) (hflag : g.loadingFlag = false)
    (h : loadNextSegment g = (Except.ok (), g1)) :
    0 < g.store.counter + g.step ∧
    g1.store.counter = g.store.counter + g.step ∧
    g1.store.calls = g.store.calls + 1 ∧
    g1.nextSegment =
      some { Min := g.store.counter + g.step - g.step + 1
             Max := g.store.counter + g.step
             Current := g.store.counter + g.step - g.step } := by
  rcases hf : g.store.faults with _ | ⟨b, rest⟩
  · by_cases hpos : g.store.counter + g.step ≤ 0
    · simp [loadNextSegment, incrementAndFetch, hf, hflag, hpos] at h
    · simp [loadNextSegment, incrementAndFetch, hf, hflag, hpos] at h
      subst h
      refine ⟨by omega, rfl, rfl, by simp⟩
  · rcases b with _ | _
    · by_cases hpos : g.store.counter + g.step ≤ 0
      · simp [loadNextSegment, incrementAndFetch, hf, hflag, hpos] at h
      · simp [loadNextSegment, incrementAndFetch, hf, hflag, hpos] at h
        subst h
        refine ⟨by omega, rfl, rfl, by simp⟩
    · simp [loadNextSegment, incrementAndFetch, hf, hflag] at h

theorem loadNextSegment_error_inv (g g1 : GenState) (e : GenError)
    (h : loadNextSegment g = (Except.error e, g1)) :
    g1.nextSegment = g.nextSegment ∧
    g1.currentSegment = g.currentSegment ∧
    g1.loadingFlag = g.loadingFlag ∧
    g1.step = g.step ∧
    g1.sleeps = g.sleeps := by
  unfold loadNextSegment at h
  split at h
  · simp at h
  · split at h
    · simp only [Prod.mk.injEq] at h
      rcases h with ⟨-, h2⟩
      subst h2
      exact ⟨rfl, rfl, rfl, rfl, rfl⟩
    · split at h
      · simp only [Prod.mk.injEq] at h
        rcases h with ⟨-, h2⟩
        subst h2
        exact ⟨rfl, rfl, rfl, rfl, rfl⟩
      · simp at h

theorem loadNextSegment_coalesce_eq (g : GenState) (hflag : g.loadingFlag = true) :
    loadNextSegment g = (Except.ok (), g) := by
  unfold loadNextSegment
  rw [hflag]
  simp

theorem incrementAndFetch_calls (step : Int) (st : StoreState) :
    ((incrementAndFetch step st).2).calls = st.calls + 1 := by
  unfold incrementAndFetch
  rcases st.faults with _ | ⟨b, rest⟩
  · rfl
  · rcases b with _ | _ <;> simp

theorem incrementAndFetch_counter_le (step : Int) (st : StoreState) (h : 0 ≤ step) :
    st.counter ≤ ((incrementAndFetch step st).2).counter := by
  unfold incrementAndFetch
  rcases st.faults with _ | ⟨b, rest⟩
  · simp
    omega
  · rcases b with _ | _ <;> (simp; try omega)

theorem loadNextSegment_calls_le (g : GenState) :
    (loadNextSegment g).2.store.calls ≤ g.store.calls + 1 := by
  unfold loadNextSegment
  split
  · simp
  · rcases h : incrementAndFetch g.step g.store with ⟨r, st⟩
    have hc : st.calls = g.store.calls + 1 := by
      have := incrementAndFetch_calls g.step g.store
      rw [h] at this
      exact this
    rcases r with e | m
    · dsimp only
      omega
    · dsimp only
      split
      · dsimp only
        omega
      · dsimp only
        omega

theorem loadNextSegment_counter_le (g : GenState) (h : 0 ≤ g.step) :
    g.store.counter ≤ (loadNextSegment g).2.store.counter := by
  unfold loadNextSegment
  split
  · simp
  · rcases hf : incrementAndFetch g.step g.store with ⟨r, st⟩
    have hc : g.store.counter ≤ st.counter := by
      have := incrementAndFetch_counter_le g.step g.store h
      rw [hf] at this
      exact this
    rcases r with e | m
    · dsimp only
      exact hc
    · dsimp only
      split
      · dsimp only
        exact hc
      · dsimp only
        exact hc

theorem promoteNext_frame (g : GenState) :
    (promoteNext g).2.store = g.store ∧
    (promoteNext g).2.sleeps = g.sleeps ∧
    (promoteNext g).2.step = g.step ∧
    (promoteNext g).2.loadingFlag = g.loadingFlag ∧
    (promoteNext g).2.prefetchDispatches = g.prefetchDispatches := by
  unfold promoteNext
  split <;> simp

theorem switchLoop_calls_le (n : Nat) : ∀ g : GenState,
    (switchLoop n g).2.store.calls ≤ g.store.calls + n := by
  induction n with
  | zero =>
      intro g
      show (promoteNext g).2.store.calls ≤ g.store.calls + 0
      rw [(promoteNext_frame g).1]
      omega
  | succ n ih =>
      intro g
      unfold switchLoop
      split
      · rw [(promoteNext_frame g).1]
        omega
      · rcases hl : loadNextSegment g with ⟨r, g1⟩
        have hcalls : g1.store.calls ≤ g.store.calls + 1 := by
          have := loadNextSegment_calls_le g
          rw [hl] at this
          exact this
        rcases r with e | u
        · cases n with
          | zero => simpa using hcalls
          | succ m =>
              dsimp only
              have hrec := ih (sleepMs (100 * (3 - (m + 1 + 1) + 1)) g1)
              have hst : (sleepMs (100 * (3 - (m + 1 + 1) + 1)) g1).store = g1.store := rfl
              rw [hst] at hrec
              omega
        · dsimp only
          have := ih g1
          omega

theorem switchSegment_calls_le (g : GenState) :
    (switchSegment g).2.store.calls ≤ g.store.calls + 3 :=
  switchLoop_calls_le 3 g

theorem switchLoop_counter_le (n : Nat) : ∀ g : GenState, 0 ≤ g.step →
    g.store.counter ≤ (switchLoop n g).2.store.counter := by
  induction n with
  | zero =>
      intro g _
      show g.store.counter ≤ (promoteNext g).2.store.counter
      rw [(promoteNext_frame g).1]
  | succ n ih =>
      intro g hs
      unfold switchLoop
      split
      · rw [(promoteNext_frame g).1]
      · rcases hl : loadNextSegment g with ⟨r, g1⟩
        have hctr : g.store.counter ≤ g1.store.counter := by
          have := loadNextSegment_counter_le g hs
          rw [hl] at this
          exact this
        have hstep : g1.step = g.step := by
          have := (loadNextSegment_preserves g).2.1
          rw [hl] at this
          exact this
        rcases r with e | u
        · cases n with
          | zero => simpa using hctr
          | succ m =>
              dsimp only
              have hst : (sleepMs (100 * (3 - (m + 1 + 1) + 1)) g1).store = g1.store := rfl
              have hsp : (sleepMs (100 * (3 - (m + 1 + 1) + 1)) g1).step = g1.step := rfl
              have hrec := ih (sleepMs (100 * (3 - (m + 1 + 1) + 1)) g1)
                (by rw [hsp, hstep]; exact hs)
              rw [hst] at hrec
              omega
        · dsimp only
          have := ih g1 (by rw [hstep]; exact hs)
          omega

theorem switchLoop0_sleeps (g : GenState) :
    (switchLoop 0 g).2.sleeps = g.sleeps :=
  (promoteNext_frame g).2.1

theorem switchLoop1_sleeps (g : GenState) :
    (switchLoop 1 g).2.sleeps = g.sleeps := by
  unfold switchLoop
  split
  · exact (promoteNext_frame g).2.1
  · rcases hl : loadNextSegment g with ⟨r, g1⟩
    have hsl : g1.sleeps = g.sleeps := by
      have := (loadNextSegment_preserves g).2.2.2.1
      rw [hl] at this
      exact this
    rcases r with e | u
    · simpa using hsl
    · simpa [switchLoop0_sleeps] using hsl

theorem switchLoop2_sleeps (g : GenState) :
    (switchLoop 2 g).2.sleeps = g.sleeps ∨
    (switchLoop 2 g).2.sleeps = g.sleeps ++ [200] := by
  unfold switchLoop
  split
  · exact Or.inl (promoteNext_frame g).2.1
  · rcases hl : loadNextSegment g with ⟨r, g1⟩
    have hsl : g1.sleeps = g.sleeps := by
      have := (loadNextSegment_preserves g).2.2.2.1
      rw [hl] at this
      exact this
    rcases r with e | u
    · right
      simp only []
      rw [switchLoop1_sleeps]
      simp [sleepMs, hsl]
    · left
      simp only []
      rw [switchLoop1_sleeps, hsl]

theorem switchSegment_sleeps (g : GenState) :
    ∃ t : List Nat, (switchSegment g).2.sleeps = g.sleeps ++ t ∧
      List.Sublist t [100, 200] := by
  unfold switchSegment switchLoop
  split
  · exact ⟨[], by simp [(promoteNext_frame g).2.1], List.nil_sublist _⟩
  · rcases hl : loadNextSegment g with ⟨r, g1⟩
    have hsl : g1.sleeps = g.sleeps := by
      have := (loadNextSegment_preserves g).2.2.2.1
      rw [hl] at this
      exact this
    rcases r with e | u
    · simp only []
      rcases switchLoop2_sleeps (sleepMs (100 * (3 - (1 + 1 + 1) + 1)) g1) with h2 | h2
      · refine ⟨[100], ?_, ?_⟩
        · rw [h2]
          simp [sleepMs, hsl]
        · exact (List.sublist_cons_self 200 []).cons₂ 100 |>.trans (List.Sublist.refl _) |>.trans (by simp)
      · refine ⟨[100, 200], ?_, List.Sublist.refl _⟩
        rw [h2]
        simp [sleepMs, hsl]
    · simp only []
      rcases switchLoop2_sleeps g1 with h2 | h2
      · exact ⟨[], by simp [h2, hsl], List.nil_sublist _⟩
      · exact ⟨[200], by simp [h2, hsl], by simp⟩

theorem switchLoop_step (n : Nat) : ∀ g : GenState,
    (switchLoop n g).2.step = g.step := by
  induction n with
  | zero =>
      intro g
      exact (promoteNext_frame g).2.2.1
  | succ n ih =>
      intro g
      unfold switchLoop
      split
      · exact (promoteNext_frame g).2.2.1
      · rcases hl : loadNextSegment g with ⟨r, g1⟩
        have hstep : g1.step = g.step := by
          have := (loadNextSegment_preserves g).2.1
          rw [hl] at this
          exact this
        rcases r with e | u
        · cases n with
          | zero => simpa using hstep
          | succ m =>
              dsimp only
              have hsp : (sleepMs (100 * (3 - (m + 1 + 1) + 1)) g1).step = g1.step := rfl
              rw [ih, hsp, hstep]
        · dsimp only
          rw [ih, hstep]

theorem nextIDLoop_calls_le (fuel : Nat) : ∀ g : GenState,
    (nextIDLoop fuel g).2.store.calls ≤ g.store.calls + 3 * fuel := by
  induction fuel with
  | zero => intro g; simp [nextIDLoop]
  | succ fuel ih =>
      intro g
      unfold nextIDLoop
      rcases hcs : g.currentSegment with _ | cur
      · simp
      · dsimp only
        split
        · split
          · have h1 := loadNextSegment_calls_le
              { g with
                currentSegment := some { cur with Current := cur.Current + 1 }
                prefetchDispatches := g.prefetchDispatches + 1 }
            dsimp only at h1 ⊢
            omega
          · dsimp only
            omega
        · rcases hsw : switchSegment { g with
              currentSegment := some { cur with Current := cur.Current + 1 } }
            with ⟨r, g2⟩
          have hc2 : g2.store.calls ≤ g.store.calls + 3 := by
            have := switchSegment_calls_le { g with
              currentSegment := some { cur with Current := cur.Current + 1 } }
            rw [hsw] at this
            exact this
          rcases r with e | u
          · dsimp only
            omega
          · dsimp only
            have := ih g2
            omega

theorem nextIDLoop_counter_le (fuel : Nat) : ∀ g : GenState, 0 ≤ g.step →
    g.store.counter ≤ (nextIDLoop fuel g).2.store.counter := by
  induction fuel with
  | zero => intro g _; simp [nextIDLoop]
  | succ fuel ih =>
      intro g hs
      unfold nextIDLoop
      rcases hcs : g.currentSegment with _ | cur
      · simp
      · dsimp only
        split
        · split
          · have h1 := loadNextSegment_counter_le
              { g with
                currentSegment := some { cur with Current := cur.Current + 1 }
                prefetchDispatches := g.prefetchDispatches + 1 }
              (by exact hs)
            dsimp only at h1 ⊢
            omega
          · dsimp only
            omega
        · rcases hsw : switchSegment { g with
              currentSegment := some { cur with Current := cur.Current + 1 } }
            with ⟨r, g2⟩
          have hc2 : g.store.counter ≤ g2.store.counter := by
            have := switchLoop_counter_le 3 { g with
              currentSegment := some { cur with Current := cur.Current + 1 } }
              (by exact hs)
            rw [show switchLoop 3 { g with
              currentSegment := some { cur with Current := cur.Current + 1 } } =
              switchSegment { g with
              currentSegment := some { cur with Current := cur.Current + 1 } } from rfl,
              hsw] at this
            exact this
          have hstep2 : g2.step = g.step := by
            have := switchLoop_step 3 { g with
              currentSegment := some { cur with Current := cur.Current + 1 } }
            rw [show switchLoop 3 { g with
              currentSegment := some { cur with Current := cur.Current + 1 } } =
              switchSegment { g with
              currentSegment := some { cur with Current := cur.Current + 1 } } from rfl,
              hsw] at this
            exact this
          rcases r with e | u
          · dsimp only
            omega
          · dsimp only
            have := ih g2 (by rw [hstep2]; exact hs)
            omega

theorem shouldLoadNext_iff (g : GenState) (s : Segment) (hw : s.Min ≤ s.Max) :
    shouldLoadNext g (some s) = true ↔
      (usageRatioAtLeastFourFifths s ∧ g.nextSegment = none ∧
        g.loadingFlag = false) := by
  unfold shouldLoadNext usageRatioAtLeastFourFifths
  dsimp only
  rw [Bool.and_eq_true, Bool.and_eq_true,
    usageThreshold_iff_ratio _ _ (by omega), Option.isNone_iff_eq_none,
    Bool.not_eq_true']
  tauto

theorem nextID_dispense_core (g : GenState) (cur : Segment)
    (hc : g.currentSegment = some cur) (hlt : cur.Current < cur.Max) :
    (NextID g).1 = Except.ok (cur.Current + 1) ∧
    (NextID g).2.currentSegment = some { cur with Current := cur.Current + 1 } ∧
    (NextID g).2.prefetchDispatches =
      (if shouldLoadNext
            { g with currentSegment := some { cur with Current := cur.Current + 1 } }
            (some { cur with Current := cur.Current + 1 }) then
        g.prefetchDispatches + 1
      else g.prefetchDispatches) := by
  unfold NextID nextIDLoop
  rw [hc]
  dsimp only
  rw [if_pos (show cur.Current + 1 ≤ cur.Max by omega)]
  by_cases hsl : shouldLoadNext
      { g with currentSegment := some { cur with Current := cur.Current + 1 } }
      (some { cur with Current := cur.Current + 1 }) = true
  · rw [if_pos hsl, if_pos hsl]
    refine ⟨rfl, ?_, ?_⟩
    · rw [(loadNextSegment_preserves _).1]
    · rw [(loadNextSegment_preserves _).2.2.2.2]
  · rw [if_neg hsl, if_neg hsl]
    exact ⟨rfl, rfl, rfl⟩

theorem nextIDLoop_ok_shape (fuel : Nat) : ∀ (g : GenState) (id : Int)
    (g2 : GenState), nextIDLoop fuel g = (Except.ok id, g2) →
    ∃ s, g2.currentSegment = some s ∧ s.Current = id ∧ id ≤ s.Max := by
  induction fuel with
  | zero =>
      intro g id g2 h
      simp [nextIDLoop] at h
  | succ fuel ih =>
      intro g id g2 h
      unfold nextIDLoop at h
      rcases hcs : g.currentSegment with _ | cur
      · rw [hcs] at h
        simp at h
      · rw [hcs] at h
        dsimp only at h
        by_cases hle : cur.Current + 1 ≤ cur.Max
        · rw [if_pos hle] at h
          by_cases hsl : shouldLoadNext
              { g with currentSegment := some { cur with Current := cur.Current + 1 } }
              (some { cur with Current := cur.Current + 1 }) = true
          · rw [if_pos hsl] at h
            simp only [Prod.mk.injEq, Except.ok.injEq] at h
            rcases h with ⟨hid, hg2⟩
            refine ⟨{ cur with Current := cur.Current + 1 }, ?_, by simp [hid], by simp; omega⟩
            rw [← hg2, (loadNextSegment_preserves _).1]
          · rw [if_neg hsl] at h
            simp only [Prod.mk.injEq, Except.ok.injEq] at h
            rcases h with ⟨hid, hg2⟩
            exact ⟨{ cur with Current := cur.Current + 1 }, by rw [← hg2],
              by simp [hid], by simp; omega⟩
        · rw [if_neg hle] at h
          rcases hsw : switchSegment
              { g with currentSegment := some { cur with Current := cur.Current + 1 } }
            with ⟨r, gs⟩
          rw [hsw] at h
          rcases r with e | u
          · simp at h
          · exact ih gs id g2 h

theorem switchLoop_isSome (n : Nat) (g : GenState) (s : Segment)
    (h : g.nextSegment = some s) : switchLoop n g = promoteNext g := by
  cases n with
  | zero => rfl
  | succ n =>
      unfold switchLoop
      rw [if_pos (by simp [h])]

theorem switchLoop_none_outcome (n : Nat) : ∀ g : GenState, g.nextSegment = none →
    (∃ e g1, switchLoop n g = (Except.error e, g1) ∧
       g1.currentSegment = g.currentSegment ∧ g1.nextSegment = none ∧
       g1.step = g.step) ∨
    (∃ g1 m, switchLoop n g = (Except.ok (), g1) ∧
       g1.currentSegment =
         some { Min := m - g.step + 1, Max := m, Current := m - g.step } ∧
       g1.nextSegment = none ∧ g1.step = g.step) := by
  induction n with
  | zero =>
      intro g hn
      left
      refine ⟨GenError.nextSegmentMissing, g, ?_, rfl, hn, rfl⟩
      show promoteNext g = _
      unfold promoteNext
      rw [hn]
  | succ n ih =>
      intro g hn
      unfold switchLoop
      rw [if_neg (by simp [hn])]
      rcases hl : loadNextSegment g with ⟨r, g1⟩
      rcases r with e | u
      · have hinv := loadNextSegment_error_inv g g1 e hl
        have hn1 : g1.nextSegment = none := by rw [hinv.1]; exact hn
        cases n with
        | zero =>
            left
            exact ⟨GenError.switchRetriesExhausted e, g1, rfl, hinv.2.1, hn1,
              hinv.2.2.2.1⟩
        | succ m =>
            dsimp only
            have hrec := ih (sleepMs (100 * (3 - (m + 1 + 1) + 1)) g1)
              (by
                show g1.nextSegment = none
                exact hn1)
            have hcur : (sleepMs (100 * (3 - (m + 1 + 1) + 1)) g1).currentSegment
                = g.currentSegment := by
              show g1.currentSegment = g.currentSegment
              exact hinv.2.1
            have hstp : (sleepMs (100 * (3 - (m + 1 + 1) + 1)) g1).step = g.step := by
              show g1.step = g.step
              exact hinv.2.2.2.1
            rcases hrec with ⟨e2, g2, heq, hc2, hn2, hs2⟩ | ⟨g2, m2, heq, hc2, hn2, hs2⟩
            · left
              exact ⟨e2, g2, heq, by rw [hc2, hcur], hn2, by rw [hs2, hstp]⟩
            · right
              exact ⟨g2, m2, heq, by rw [hc2, hstp], hn2, by rw [hs2, hstp]⟩
      · by_cases hf : g.loadingFlag = true
        · have hco := loadNextSegment_coalesce_eq g hf
          rw [hco] at hl
          simp only [Prod.mk.injEq] at hl
          rcases hl with ⟨-, hg1⟩
          subst hg1
          dsimp only
          exact ih g hn
        · have hflag : g.loadingFlag = false := by
            revert hf
            cases g.loadingFlag <;> simp
          have hok := loadNextSegment_ok_inv g g1 hflag hl
          have hstep1 : g1.step = g.step := by
            have := (loadNextSegment_preserves g).2.1
            rw [hl] at this
            exact this
          dsimp only
          rw [switchLoop_isSome n g1 _ hok.2.2.2]
          unfold promoteNext
          rw [hok.2.2.2]
          dsimp only
          right
          exact ⟨_, g.store.counter + g.step, rfl, rfl, rfl, hstep1⟩

theorem widthInv_load (g : GenState) (h : WidthInv g) :
    WidthInv (loadNextSegment g).2 := by
  rcases hl : loadNextSegment g with ⟨r, g1⟩
  dsimp only
  have hcur : g1.currentSegment = g.currentSegment := by
    have := (loadNextSegment_preserves g).1
    rw [hl] at this
    exact this
  have hstep : g1.step = g.step := by
    have := (loadNextSegment_preserves g).2.1
    rw [hl] at this
    exact this
  rcases r with e | u
  · have hinv := loadNextSegment_error_inv g g1 e hl
    refine ⟨by rw [hstep]; exact h.1, ?_, ?_⟩
    · intro s hs
      exact h.2.1 s (by rw [← hcur]; exact hs)
    · intro s hs
      exact h.2.2 s (by rw [← hinv.1]; exact hs)
  · by_cases hf : g.loadingFlag = true
    · have hco := loadNextSegment_coalesce_eq g hf
      rw [hco] at hl
      simp only [Prod.mk.injEq] at hl
      rcases hl with ⟨-, hg1⟩
      subst hg1
      exact h
    · have hflag : g.loadingFlag = false := by
        revert hf
        cases g.loadingFlag <;> simp
      have hok := loadNextSegment_ok_inv g g1 hflag hl
      refine ⟨by rw [hstep]; exact h.1, ?_, ?_⟩
      · intro s hs
        exact h.2.1 s (by rw [← hcur]; exact hs)
      · intro s hs
        rw [hok.2.2.2] at hs
        simp only [Option.some.injEq] at hs
        subst hs
        dsimp only
        have := h.1
        omega

theorem widthInv_promote (g : GenState) (h : WidthInv g) :
    WidthInv (promoteNext g).2 := by
  unfold promoteNext
  rcases hn : g.nextSegment with _ | s
  · exact h
  · dsimp only
    refine ⟨h.1, ?_, by simp⟩
    intro s2 hs2
    simp only [Option.some.injEq] at hs2
    subst hs2
    exact h.2.2 _ hn

theorem widthInv_switchLoop (n : Nat) : ∀ g : GenState, WidthInv g →
    WidthInv (switchLoop n g).2 := by
  induction n with
  | zero => intro g h; exact widthInv_promote g h
  | succ n ih =>
      intro g h
      unfold switchLoop
      split
      · exact widthInv_promote g h
      · rcases hl : loadNextSegment g with ⟨r, g1⟩
        have h1 : WidthInv g1 := by
          have := widthInv_load g h
          rw [hl] at this
          exact this
        rcases r with e | u
        · cases n with
          | zero => exact h1
          | succ m =>
              dsimp only
              exact ih _ h1
        · dsimp only
          exact ih g1 h1

theorem widthInv_nextIDLoop (fuel : Nat) : ∀ g : GenState, WidthInv g →
    WidthInv (nextIDLoop fuel g).2 := by
  induction fuel with
  | zero => intro g h; exact h
  | succ fuel ih =>
      intro g h
      unfold nextIDLoop
      rcases hcs : g.currentSegment with _ | cur
      · exact h
      · dsimp only
        have hcur1 : WidthInv
            { g with currentSegment := some { cur with Current := cur.Current + 1 } } := by
          refine ⟨h.1, ?_, h.2.2⟩
          intro s hs
          simp only [Option.some.injEq] at hs
          subst hs
          dsimp only
          exact h.2.1 cur hcs
        split
        · split
          · exact widthInv_load _ ⟨hcur1.1, hcur1.2.1, hcur1.2.2⟩
          · exact hcur1
        · rcases hsw : switchSegment
              { g with currentSegment := some { cur with Current := cur.Current + 1 } }
            with ⟨r, g2⟩
          have h2 : WidthInv g2 := by
            have := widthInv_switchLoop 3 _ hcur1
            rw [show switchLoop 3 { g with
              currentSegment := some { cur with Current := cur.Current + 1 } } =
              switchSegment { g with
              currentSegment := some { cur with Current := cur.Current + 1 } } from rfl,
              hsw] at this
            exact this
          rcases r with e | u
          · exact h2
          · exact ih g2 h2

theorem widthInv_new (st : StoreState) (g : GenState)
    (h : NewSegmentIDGenerator st = Except.ok g) : WidthInv g := by
  unfold NewSegmentIDGenerator at h
  dsimp only at h
  rcases hl : loadNextSegment
      { currentSegment := none, nextSegment := none, loadingFlag := false
        step := 1000, store := st, sleeps := [], prefetchDispatches := 0 }
    with ⟨r, g1⟩
  rw [hl] at h
  have h1 : WidthInv g1 := by
    have := widthInv_load
      { currentSegment := none, nextSegment := none, loadingFlag := false
        step := 1000, store := st, sleeps := [], prefetchDispatches := 0 }
      ⟨rfl, by simp, by simp⟩
    rw [hl] at this
    exact this
  rcases r with e | u
  · simp at h
  · simp only [Except.ok.injEq] at h
    subst h
    refine ⟨h1.1, ?_, by simp⟩
    intro s hs
    exact h1.2.2 s hs

theorem loadNextSegment_clean (g : GenState) (hf : g.loadingFlag = false)
    (hfa : g.store.faults = []) (hpos : 0 < g.store.counter + g.step) :
    loadNextSegment g = (Except.ok (),
      { g with
        store := { counter := g.store.counter + g.step, faults := []
                   calls := g.store.calls + 1 }
        nextSegment := some { Min := g.store.counter + g.step - g.step + 1
                              Max := g.store.counter + g.step
                              Current := g.store.counter + g.step - g.step } }) := by
  unfold loadNextSegment incrementAndFetch
  rw [hf, hfa]
  simp only [Bool.false_eq_true, if_false]
  rw [if_neg (by omega)]

theorem switchLoop_succ_step (n : Nat) (g : GenState) (hn : g.nextSegment = none) :
    switchLoop (n + 1) g =
      match loadNextSegment g with
      | (Except.ok _, g1) => switchLoop n g1
      | (Except.error e, g1) =>
          match n with
          | 0 => (Except.error (GenError.switchRetriesExhausted e), g1)
          | r + 1 => switchLoop (r + 1) (sleepMs (100 * (3 - (n + 1) + 1)) g1) := by
  conv_lhs => rw [switchLoop]
  rw [if_neg (by simp [hn])]

theorem nextID_error_of_exhausted (g : GenState) (cur : Segment)
    (hc : g.currentSegment = some cur) (hex : cur.Max ≤ cur.Current)
    (hn : g.nextSegment = none) (hstep : 0 < g.step)
    (err : GenError) (g2 : GenState)
    (h : NextID g = (Except.error err, g2)) :
    (∃ e, err = GenError.switchFailed e) ∧
    g2.currentSegment = some { cur with Current := cur.Current + 1 } ∧
    g2.nextSegment = none := by
  unfold NextID nextIDLoop at h
  rw [hc] at h
  dsimp only at h
  rw [if_neg (by simp; omega)] at h
  unfold switchSegment at h
  have hout := switchLoop_none_outcome 3
    { g with currentSegment := some { cur with Current := cur.Current + 1 } }
    (by exact hn)
  rcases hout with ⟨e, g1, heq, hcur1, hn1, hs1⟩ | ⟨g1, m, heq, hcur1, hn1, hs1⟩
  · rw [heq] at h
    dsimp only at h
    simp only [Prod.mk.injEq, Except.error.injEq] at h
    rcases h with ⟨herr, hg2⟩
    subst hg2
    exact ⟨⟨e, herr.symm⟩, hcur1, hn1⟩
  · rw [heq] at h
    dsimp only at h
    unfold nextIDLoop at h
    rw [hcur1] at h
    dsimp only at h
    rw [if_pos (by
      show m - _ + 1 ≤ m
      have : g1.step = g.step := hs1
      omega)] at h
    split at h <;> simp at h

theorem nextID_recover (g : GenState) (cur : Segment)
    (hc : g.currentSegment = some cur) (hex : cur.Max ≤ cur.Current)
    (hn : g.nextSegment = none) (hf : g.loadingFlag = false)
    (hfa : g.store.faults = []) (hstep : 0 < g.step)
    (hctr : 0 ≤ g.store.counter) :
    (NextID g).1 = Except.ok (g.store.counter + 1) := by
  unfold NextID nextIDLoop
  rw [hc]
  dsimp only
  rw [if_neg (by simp; omega)]
  have hload := loadNextSegment_clean
    { g with currentSegment := some { cur with Current := cur.Current + 1 } }
    (by exact hf) (by exact hfa) (by show 0 < g.store.counter + g.step; omega)
  rw [show switchSegment
      { g with currentSegment := some { cur with Current := cur.Current + 1 } } =
      switchLoop 3
      { g with currentSegment := some { cur with Current := cur.Current + 1 } }
    from rfl]
  rw [switchLoop_succ_step 2 _ (by exact hn), hload]
  dsimp only
  rw [switchLoop_isSome 2 _ _ rfl]
  unfold promoteNext
  dsimp only
  unfold nextIDLoop
  dsimp only
  rw [if_pos (show g.store.counter + g.step - g.step + 1 ≤ g.store.counter + g.step
    by omega)]
  split
  · dsimp only
    simp only [Except.ok.injEq]
    omega
  · dsimp only
    simp only [Except.ok.injEq]
    omega

/-- Thread-local view of one caller executing the promote tail of
`switchSegment` (segment.go lines 106-112) in the interleaving model:
`pc` is the next atomic operation to run, `reg` the value read from
`nextSegment` by the Load half of line 110.  Segments are abstracted
to numeric identities, since only which pointer each slot holds
matters here. -/
structure PromoteThread where
  pc : Nat
  reg : Option Nat
deriving Repr, DecidableEq

/-- Shared state of the interleaving model: the `currentSegment` and
`nextSegment` atomic pointer slots plus two threads, each running the
promote tail of `switchSegment`.  The Go memory model makes each
`Load`/`Store` on an `atomic.Pointer` a single atomic operation, so an
execution is an arbitrary interleaving of the atomic operations of
the threads. -/
structure PromoteState where
  current : Option Nat
  next : Option Nat
  t1 : PromoteThread
  t2 : PromoteThread
deriving Repr, DecidableEq

/-- One atomic operation of the promote tail, per program counter:
`pc = 0` is the `g.nextSegment.Load() == nil` check of line 106 (on
nil the thread stops with the "failed to load next segment" error,
`pc := 5`); `pc = 1` is the `g.nextSegment.Load()` of line 110 read
into `reg`; `pc = 2` is the `g.currentSegment.Store(reg)` of line 110;
`pc = 3` is the `g.nextSegment.Store(nil)` of line 111; `pc = 4` is
normal completion. -/
def promoteStep (t : PromoteThread) (cur nxt : Option Nat) :
    PromoteThread × Option Nat × Option Nat :=
  match t.pc with
  | 0 =>
      if nxt.isSome then ({ t with pc := 1 }, cur, nxt)
      else ({ t with pc := 5 }, cur, nxt)
  | 1 => ({ t with pc := 2, reg := nxt }, cur, nxt)
  | 2 => ({ t with pc := 3 }, t.reg, nxt)
  | 3 => ({ t with pc := 4 }, cur, none)
  | _ => (t, cur, nxt)

/-- Run a schedule: `true` runs one atomic operation of thread 1,
`false` one of thread 2. -/
def promoteRun : List Bool → PromoteState → PromoteState
  | [], s => s
  | tid :: rest, s =>
      if tid then
        let r := promoteStep s.t1 s.current s.next
        promoteRun rest { current := r.2.1, next := r.2.2, t1 := r.1, t2 := s.t2 }
      else
        let r := promoteStep s.t2 s.current s.next
        promoteRun rest { current := r.2.1, next := r.2.2, t1 := s.t1, t2 := r.1 }

/-- Initial state for the race: the old (exhausted) segment `1` is
active, the standby segment `2` is staged, and two callers have both
detected exhaustion and entered `switchSegment` with the standby
present (so neither runs the refill loop). -/
def promoteInit : PromoteState :=
  { current := some 1, next := some 2
    t1 := { pc := 0, reg := none }, t2 := { pc := 0, reg := none } }

/-- The interleaving that loses the active segment: thread 2 passes
the line-106 check, thread 1 then runs the whole promote
(check, Load, Store current, clear next), and thread 2 resumes at
line 110, re-reads `nextSegment` — now nil — and stores nil into
`currentSegment`. -/
def raceSchedule : List Bool :=
  [false, true, true, true, true, false, false, false]

/-- Shared counter starting empty (document not yet created). -/
def stW : StoreState := { counter := 0, faults := [], calls := 0 }

/-- Generator state right after a successful `NewSegmentIDGenerator`
on an empty store: first segment 1..1000 active, nothing staged. -/
def gInit : GenState :=
  { currentSegment := some { Min := 1, Max := 1000, Current := 0 }
    nextSegment := none, loadingFlag := false, step := 1000
    store := { counter := 1000, faults := [], calls := 1 }
    sleeps := [], prefetchDispatches := 0 }

/-- Fresh generator state whose first refill has not happened yet. -/
def gW0 : GenState :=
  { currentSegment := some { Min := 1, Max := 1000, Current := 0 }
    nextSegment := none, loadingFlag := false, step := 1000
    store := stW, sleeps := [], prefetchDispatches := 0 }

/-- State of `gW0` after one refill. -/
def gW1 : GenState :=
  { currentSegment := some { Min := 1, Max := 1000, Current := 0 }
    nextSegment := some { Min := 1, Max := 1000, Current := 0 }
    loadingFlag := false, step := 1000
    store := { counter := 1000, faults := [], calls := 1 }
    sleeps := [], prefetchDispatches := 0 }

/-- State of `gW1` after a second refill. -/
def gW2 : GenState :=
  { currentSegment := some { Min := 1, Max := 1000, Current := 0 }
    nextSegment := some { Min := 1001, Max := 2000, Current := 1000 }
    loadingFlag := false, step := 1000
    store := { counter := 2000, faults := [], calls := 2 }
    sleeps := [], prefetchDispatches := 0 }

/-- State with a stale standby segment staged, used to observe the
refill overwriting it. -/
def gW5 : GenState :=
  { currentSegment := none
    nextSegment := some { Min := 7, Max := 9, Current := 8 }
    loadingFlag := false, step := 1000
    store := { counter := 0, faults := [], calls := 0 }
    sleeps := [], prefetchDispatches := 0 }

/-- State whose store counter is corrupted (negative), so the next
increment-and-fetch yields a non-positive `maxId`. -/
def gW6 : GenState :=
  { currentSegment := none
    nextSegment := some { Min := 7, Max := 9, Current := 8 }
    loadingFlag := false, step := 1000
    store := { counter := -5000, faults := [], calls := 0 }
    sleeps := [], prefetchDispatches := 0 }

/-- State whose active segment sits at 799 of 1..1000, so the next
dispense claims 800 and crosses the 80% threshold. -/
def gW7 : GenState :=
  { currentSegment := some { Min := 1, Max := 1000, Current := 799 }
    nextSegment := none, loadingFlag := false, step := 1000
    store := { counter := 1000, faults := [], calls := 1 }
    sleeps := [], prefetchDispatches := 0 }

/-- State with a refill already in flight (`loadingFlag` held). -/
def gW8 : GenState :=
  { currentSegment := none
    nextSegment := some { Min := 7, Max := 9, Current := 8 }
    loadingFlag := true, step := 1000
    store := { counter := 0, faults := [], calls := 0 }
    sleeps := [], prefetchDispatches := 0 }

/-- Exhausted active segment, no standby, and a store that will fail
the next three round trips. -/
def gFail : GenState :=
  { currentSegment := some { Min := 1, Max := 1000, Current := 1000 }
    nextSegment := none, loadingFlag := false, step := 1000
    store := { counter := 1000, faults := [true, true, true], calls := 0 }
    sleeps := [], prefetchDispatches := 0 }

/-- State produced by `NextID gFail`: the switch failed, the active
slot still holds the exhausted segment (cursor advanced past `Max` by
the discarded claim), and the store is healthy again. -/
def gFailAfter : GenState :=
  { currentSegment := some { Min := 1, Max := 1000, Current := 1001 }
    nextSegment := none, loadingFlag := false, step := 1000
    store := { counter := 1000, faults := [], calls := 3 }
    sleeps := [100, 200], prefetchDispatches := 0 }

/-- C1: the claim asserts that no ID is ever returned twice across
concurrent callers and that the promote step of a segment switch is a
single atomic pointer-swap, so a concurrent `NextID` caller never
observes a half-updated active/standby state.  The code violates the
second part: segment.go lines 110-111 perform the promote as three
separate atomic operations (`nextSegment.Load()`,
`currentSegment.Store(...)`, `nextSegment.Store(nil)`), and this
theorem runs a concrete interleaving of two callers in that code
(modelled per atomic operation by `promoteStep`) that completes both
threads yet leaves `currentSegment = nil` — a half-updated state in
which a concurrent `NextID` fails with "no available segment" even
though the allocator had a valid standby.  A single atomic swap, as
the specification requires, could never produce this state. -/
theorem promote_race_half_updated :
    promoteInit.current = some 1 ∧ promoteInit.next = some 2 ∧
    (promoteRun raceSchedule promoteInit).t1.pc = 4 ∧
    (promoteRun raceSchedule promoteInit).t2.pc = 4 ∧
    (promoteRun raceSchedule promoteInit).current = none ∧
    (promoteRun raceSchedule promoteInit).next = none := by
  decide

/-- C2: a `NextID` call on an allocator whose active segment has
cursor `Current < Max` returns exactly `Current + 1` (the atomically
incremented cursor value), that value does not exceed the `Max` of
the segment, a second successful dispense from the same segment returns the
strictly larger `Current + 2`, and (second conjunct) every ID any
`NextID` call returns equals the final cursor of, and is bounded by
the `Max` of, the segment it was claimed from. -/
theorem nextID_dispense_spec :
    (∀ (g : GenState) (cur : Segment), g.currentSegment = some cur →
       cur.Current < cur.Max →
       (NextID g).1 = Except.ok (cur.Current + 1) ∧
       cur.Current + 1 ≤ cur.Max ∧
       (NextID g).2.currentSegment = some { cur with Current := cur.Current + 1 } ∧
       (cur.Current + 1 < cur.Max →
         (NextID (NextID g).2).1 = Except.ok (cur.Current + 2))) ∧
    (∀ (g g2 : GenState) (id : Int), NextID g = (Except.ok id, g2) →
       ∃ s, g2.currentSegment = some s ∧ s.Current = id ∧ id ≤ s.Max) := by
  constructor
  · intro g cur hc hlt
    obtain ⟨h1, h2, -⟩ := nextID_dispense_core g cur hc hlt
    refine ⟨h1, by omega, h2, ?_⟩
    intro hlt2
    obtain ⟨h4, -, -⟩ := nextID_dispense_core (NextID g).2
      { cur with Current := cur.Current + 1 } h2
      (by first | omega | (dsimp only; omega))
    rw [h4]
    simp only [Except.ok.injEq]
    omega
  · intro g g2 id h
    exact nextIDLoop_ok_shape 2 g id g2 h

/-- Witness for C2 on the freshly constructed allocator: the first
call returns 1 and the second returns 2. -/
theorem nextID_dispense_spec_witness :
    (NextID gInit).1 = Except.ok (0 + 1) ∧
    (NextID (NextID gInit).2).1 = Except.ok (0 + 2) := by
  obtain ⟨h1, -, -, h4⟩ := nextID_dispense_spec.1 gInit
    { Min := 1, Max := 1000, Current := 0 } rfl (by decide)
  exact ⟨h1, h4 (by decide)⟩

/-- C3: two refills performed in sequence (the second seeing a store
counter at least as large as the one the first left behind, which
holds because every operation only grows the counter — second
conjunct) install segments whose ID ranges are strictly separated:
every ID of the earlier segment is strictly below every ID of the
later one. -/
theorem cross_segment_monotonic :
    (∀ (g g1 g2 g3 : GenState) (s1 s2 : Segment),
       g.loadingFlag = false → loadNextSegment g = (Except.ok (), g1) →
       g1.nextSegment = some s1 →
       g2.loadingFlag = false → g2.step = g.step → 0 < g.step →
       g1.store.counter ≤ g2.store.counter →
       loadNextSegment g2 = (Except.ok (), g3) →
       g3.nextSegment = some s2 →
       ∀ i1 i2 : Int, s1.Min ≤ i1 → i1 ≤ s1.Max → s2.Min ≤ i2 → i2 ≤ s2.Max →
         i1 < i2) ∧
    (∀ g : GenState, 0 ≤ g.step →
       g.store.counter ≤ (NextID g).2.store.counter) := by
  constructor
  · intro g g1 g2 g3 s1 s2 hf1 hl1 hs1 hf2 hstep hpos hmono hl2 hs2
      i1 i2 hi1 hi2 hi3 hi4
    have ha := loadNextSegment_ok_inv g g1 hf1 hl1
    have hb := loadNextSegment_ok_inv g2 g3 hf2 hl2
    rw [ha.2.2.2] at hs1
    simp only [Option.some.injEq] at hs1
    rw [hb.2.2.2] at hs2
    simp only [Option.some.injEq] at hs2
    subst hs1
    subst hs2
    have hctr := ha.2.1
    first | omega | (dsimp only at hi1 hi2 hi3 hi4; omega)
  · intro g hs
    exact nextIDLoop_counter_le 2 g hs

/-- Witness for C3: from an empty store, the first refill grants
1..1000 and the second 1001..2000; the largest ID of the first is
below the smallest of the second. -/
theorem cross_segment_monotonic_witness :
    loadNextSegment gW0 = (Except.ok (), gW1) ∧
    loadNextSegment gW1 = (Except.ok (), gW2) ∧
    (1000 : Int) < 1001 := by
  refine ⟨by decide, by decide, ?_⟩
  exact cross_segment_monotonic.1 gW0 gW1 gW1 gW2
    { Min := 1, Max := 1000, Current := 0 }
    { Min := 1001, Max := 2000, Current := 1000 }
    rfl (by decide) rfl rfl rfl (by decide) (by decide) (by decide) rfl
    1000 1001 (by decide) (by decide) (by decide) (by decide)

/-- C4: every `NextID` call terminates after at most the 2 outer
iterations of its retry loop, issuing at most 6 store round trips
(2 outer iterations times the 3 bounded refill attempts of
`switchSegment`); a single `switchSegment` issues at most 3 round
trips and sleeps, between failed attempts, exactly the prefix pattern
100 ms then 200 ms (100 ms times the attempt number), never more. -/
theorem nextID_bounded_retries :
    (∀ g : GenState, (NextID g).2.store.calls ≤ g.store.calls + 6) ∧
    (∀ g : GenState, (switchSegment g).2.store.calls ≤ g.store.calls + 3) ∧
    (∀ g : GenState, ∃ t : List Nat,
       (switchSegment g).2.sleeps = g.sleeps ++ t ∧
       List.Sublist t [100, 200]) :=
  ⟨fun g => nextIDLoop_calls_le 2 g, switchSegment_calls_le, switchSegment_sleeps⟩

/-- C5: a refill that obtains `newMax > 0` from the store succeeds and
stores exactly `Segment{Min: newMax-step+1, Max: newMax,
Current: newMax-step}` into the standby slot, whatever that slot
previously held. -/
theorem refill_installs_segment (g : GenState) (m : Int)
    (hf : g.loadingFlag = false)
    (hfetch : (incrementAndFetch g.step g.store).1 = Except.ok m)
    (hpos : 0 < m) :
    (loadNextSegment g).1 = Except.ok () ∧
    (loadNextSegment g).2.nextSegment =
      some { Min := m - g.step + 1, Max := m, Current := m - g.step } := by
  unfold loadNextSegment
  rw [hf]
  simp only [Bool.false_eq_true, if_false]
  rcases hif : incrementAndFetch g.step g.store with ⟨r, st⟩
  rw [hif] at hfetch
  rcases r with e | m2
  · simp at hfetch
  · have hm : m2 = m := by simpa using hfetch
    subst hm
    dsimp only
    rw [if_neg (by omega)]
    exact ⟨rfl, rfl⟩

/-- Witness for C5: a refill against a counter at 0 with step 1000
installs the segment 1..1000, overwriting the stale standby 7..9
that `gW5` held. -/
theorem refill_installs_segment_witness :
    gW5.nextSegment = some { Min := 7, Max := 9, Current := 8 } ∧
    (loadNextSegment gW5).1 = Except.ok () ∧
    (loadNextSegment gW5).2.nextSegment =
      some { Min := 1000 - 1000 + 1, Max := 1000, Current := 1000 - 1000 } := by
  refine ⟨rfl, ?_⟩
  exact refill_installs_segment gW5 1000 rfl (by decide) (by decide)

/-- C6: a refill whose increment-and-fetch returns `newMax ≤ 0` fails
with the invalid-range error and leaves the standby slot exactly as it
was. -/
theorem refill_invalid_range (g : GenState) (m : Int)
    (hf : g.loadingFlag = false)
    (hfetch : (incrementAndFetch g.step g.store).1 = Except.ok m)
    (hneg : m ≤ 0) :
    (loadNextSegment g).1 = Except.error (GenError.invalidMaxId m) ∧
    (loadNextSegment g).2.nextSegment = g.nextSegment := by
  unfold loadNextSegment
  rw [hf]
  simp only [Bool.false_eq_true, if_false]
  rcases hif : incrementAndFetch g.step g.store with ⟨r, st⟩
  rw [hif] at hfetch
  rcases r with e | m2
  · simp at hfetch
  · have hm : m2 = m := by simpa using hfetch
    subst hm
    dsimp only
    rw [if_pos hneg]
    exact ⟨rfl, rfl⟩

/-- Witness for C6: with the counter corrupted to -5000, the fetch
returns -4000, the refill fails with `invalid maxId: -4000`, and the
stale standby of `gW6` is untouched. -/
theorem refill_invalid_range_witness :
    (loadNextSegment gW6).1 = Except.error (GenError.invalidMaxId (-4000)) ∧
    (loadNextSegment gW6).2.nextSegment = gW6.nextSegment := by
  exact refill_invalid_range gW6 (-4000) rfl (by decide) (by decide)

/-- C7: a successful dispense returns the claimed value `v = Current +
1` and dispatches an asynchronous refill exactly when the usage ratio
`(v - Min + 1) / (Max - Min + 1)` of the active segment is at least
0.8 (taken here as the exact rational 4/5), the standby slot is empty,
and the loading flag is clear; when the condition fails no refill is
dispatched, and the returned value is the same either way. -/
theorem nextID_prefetch_trigger (g : GenState) (cur : Segment)
    (hw : cur.Min ≤ cur.Max) (hc : g.currentSegment = some cur)
    (hlt : cur.Current < cur.Max) :
    (NextID g).1 = Except.ok (cur.Current + 1) ∧
    ((NextID g).2.prefetchDispatches = g.prefetchDispatches + 1 ↔
      (usageRatioAtLeastFourFifths { cur with Current := cur.Current + 1 } ∧
       g.nextSegment = none ∧ g.loadingFlag = false)) ∧
    (¬(usageRatioAtLeastFourFifths { cur with Current := cur.Current + 1 } ∧
       g.nextSegment = none ∧ g.loadingFlag = false) →
      (NextID g).2.prefetchDispatches = g.prefetchDispatches) := by
  obtain ⟨h1, -, h3⟩ := nextID_dispense_core g cur hc hlt
  have hiff := shouldLoadNext_iff
    { g with currentSegment := some { cur with Current := cur.Current + 1 } }
    { cur with Current := cur.Current + 1 }
    (by first | omega | (dsimp only; omega))
  refine ⟨h1, ?_, ?_⟩
  · rw [h3]
    by_cases hs : shouldLoadNext
        { g with currentSegment := some { cur with Current := cur.Current + 1 } }
        (some { cur with Current := cur.Current + 1 }) = true
    · rw [if_pos hs]
      exact ⟨fun _ => hiff.mp hs, fun _ => rfl⟩
    · rw [if_neg hs]
      constructor
      · intro habs
        exact absurd habs (by omega)
      · intro hcond
        exact absurd (hiff.mpr hcond) hs
  · intro hncond
    rw [h3, if_neg (fun hs => hncond (hiff.mp hs))]

/-- Witness for C7: from `gW7` (cursor at 799 of 1..1000, standby
empty, flag clear) the call returns 800 — exactly 80% usage — and
dispatches one prefetch. -/
theorem nextID_prefetch_trigger_witness :
    (NextID gW7).1 = Except.ok (799 + 1) ∧
    (NextID gW7).2.prefetchDispatches = gW7.prefetchDispatches + 1 := by
  obtain ⟨h1, h2, -⟩ := nextID_prefetch_trigger gW7
    { Min := 1, Max := 1000, Current := 799 } (by decide) rfl (by decide)
  refine ⟨h1, h2.mpr ⟨?_, rfl, rfl⟩⟩
  unfold usageRatioAtLeastFourFifths
  norm_num

/-- C8: a refill entered while another refill holds the loading guard
returns success immediately, contacting the store zero times and
leaving the standby slot (indeed the whole state) untouched, so
overlapping refills coalesce. -/
theorem refill_coalesce (g : GenState) (hf : g.loadingFlag = true) :
    loadNextSegment g = (Except.ok (), g) ∧
    (loadNextSegment g).2.store.calls = g.store.calls ∧
    (loadNextSegment g).2.nextSegment = g.nextSegment := by
  have h := loadNextSegment_coalesce_eq g hf
  exact ⟨h, by rw [h], by rw [h]⟩

/-- Witness for C8 on `gW8`, whose loading flag is held. -/
theorem refill_coalesce_witness :
    loadNextSegment gW8 = (Except.ok (), gW8) ∧
    (loadNextSegment gW8).2.store.calls = gW8.store.calls ∧
    (loadNextSegment gW8).2.nextSegment = gW8.nextSegment :=
  refill_coalesce gW8 rfl

/-- C9: when the active segment is exhausted, no standby is staged and
the switch cannot obtain a replacement, `NextID` fails with the
switch-failed error while the active slot still holds the same
segment (only its in-struct cursor advanced by the discarded claim)
and no standby appears; a subsequent call with the store healthy again
performs the switch and returns the next counter value. -/
theorem switch_failure_keeps_allocator_usable :
    (∀ (g g2 : GenState) (cur : Segment) (err : GenError),
       g.currentSegment = some cur → cur.Max ≤ cur.Current →
       g.nextSegment = none → 0 < g.step →
       NextID g = (Except.error err, g2) →
       (∃ e, err = GenError.switchFailed e) ∧
       g2.currentSegment = some { cur with Current := cur.Current + 1 } ∧
       g2.nextSegment = none) ∧
    (∀ (g : GenState) (cur : Segment),
       g.currentSegment = some cur → cur.Max ≤ cur.Current →
       g.nextSegment = none → g.loadingFlag = false →
       g.store.faults = [] → 0 < g.step → 0 ≤ g.store.counter →
       (NextID g).1 = Except.ok (g.store.counter + 1)) :=
  ⟨fun g g2 cur err hc hex hn hs h =>
      nextID_error_of_exhausted g cur hc hex hn hs err g2 h,
   fun g cur hc hex hn hf hfa hs hctr =>
      nextID_recover g cur hc hex hn hf hfa hs hctr⟩

/-- Witness for C9: `gFail` (exhausted segment, three store faults)
fails with the switch-failed error and keeps its segment; from the
resulting state `gFailAfter`, with the store healthy, the next call
returns 1001. -/
theorem switch_failure_keeps_allocator_usable_witness :
    ((∃ e, GenError.switchFailed
        (GenError.switchRetriesExhausted GenError.storeUnavailable) =
        GenError.switchFailed e) ∧
      gFailAfter.currentSegment = some { Min := 1, Max := 1000, Current := 1000 + 1 } ∧
      gFailAfter.nextSegment = none) ∧
    (NextID gFailAfter).1 = Except.ok (1000 + 1) := by
  constructor
  · exact switch_failure_keeps_allocator_usable.1 gFail gFailAfter
      { Min := 1, Max := 1000, Current := 1000 }
      (GenError.switchFailed
        (GenError.switchRetriesExhausted GenError.storeUnavailable))
      rfl (by decide) rfl (by decide) (by decide)
  · exact switch_failure_keeps_allocator_usable.2 gFailAfter
      { Min := 1, Max := 1000, Current := 1001 }
      rfl (by decide) rfl rfl rfl (by decide) (by decide)

/-- C10: the constructor hardcodes `step = 1000` and nothing mutates
it, every segment either slot ever holds spans exactly 1000
identifiers, and this invariant is established by construction and
preserved by `NextID`, by refills and by segment switches. -/
theorem step_is_1000_and_width_1000 :
    (∀ (st : StoreState) (g : GenState),
       NewSegmentIDGenerator st = Except.ok g → WidthInv g) ∧
    (∀ g : GenState, WidthInv g → WidthInv (NextID g).2) ∧
    (∀ g : GenState, WidthInv g → WidthInv (loadNextSegment g).2) ∧
    (∀ g : GenState, WidthInv g → WidthInv (switchSegment g).2) :=
  ⟨widthInv_new, fun g h => widthInv_nextIDLoop 2 g h, widthInv_load,
   fun g h => widthInv_switchLoop 3 g h⟩

/-- Witness for C10: constructing against an empty store yields
`gInit`, which satisfies the width invariant. -/
theorem step_is_1000_and_width_1000_witness :
    NewSegmentIDGenerator stW = Except.ok gInit ∧ WidthInv gInit := by
  refine ⟨by decide, ?_⟩
  exact step_is_1000_and_width_1000.1 stW gInit (by decide)

end IdGenerator
